import Mathlib

/-!
Verification development for the multiplayer voxel-world client
(React/Three.js frontend: `World.tsx`, `PlayerController.tsx`,
`WebSocketManager`, `Game.tsx`).

Modelling conventions:
* The source keys its sparse block map by the string
  `"${Math.floor(x)},${Math.floor(y)},${Math.floor(z)}"`.  All call sites
  relevant here pass integer coordinates (server block lists, raycast
  results), on which `Math.floor` is the identity, and the decimal string
  encoding is injective on integer triples; coordinates are therefore
  embedded as integer triples and the key is the triple itself.
* A JS `Map` is embedded as an association list in insertion order
  (`Map.set` after `Map.delete` appends at the end, matching the source's
  remove-then-set in `placeBlock`; `Map.forEach` iterates in insertion
  order).  Since a JS `Map` holds at most one entry per key, deleting the
  entry of a key coincides with filtering out every entry of that key.
* The mesh stored as a map value carries the block type only through its
  material (`materials[blockType]`); the embedding records that type as
  the map value.  The observable queries (`getBlockAt`, `getWorldState`)
  ignore it exactly as the source does.
* JS floating-point numbers are modelled as exact rationals (`ℚ`).
-/

set_option maxRecDepth 8000

namespace Craft

/-- `Position` from `types/index.ts` (integer voxel coordinates; see the
floor/injectivity note above). -/
structure Position where
  x : Int
  y : Int
  z : Int
deriving DecidableEq, Repr

/-- A floating-point triple (player positions, rotations, stats positions),
modelled over `ℚ`. -/
structure Vec3 where
  x : ℚ
  y : ℚ
  z : ℚ
deriving DecidableEq, Repr

/-- `Block` from `types/index.ts`. -/
structure Block where
  position : Position
  type : Nat
deriving DecidableEq, Repr

/-- `Player` from `types/index.ts`. -/
structure Player where
  id : String
  position : Vec3
  rotation : Vec3
deriving DecidableEq, Repr

/-- `WorldState` from `types/index.ts`. -/
structure WorldState where
  blocks : List Block
  players : List Player
deriving DecidableEq, Repr

/-- The map key built by `World.positionToKey` (the integer triple; the
source's comma-separated decimal string is injective on integer triples). -/
abbrev BlockKey := Int × Int × Int

/-- `World.positionToKey` (`World.tsx:110`): on integer coordinates
`Math.floor` is the identity. -/
def positionToKey (p : Position) : BlockKey := (p.x, p.y, p.z)

/-- The sparse block store `World.blocks : Map<string, Mesh>`, embedded as
an insertion-ordered association list from key to the block type of the
mesh's material. -/
abbrev WorldStore := List (BlockKey × Nat)

/-- `Map.get` / `Map.has` on the block store. -/
def lookupBlock : WorldStore → BlockKey → Option Nat
  | [], _ => none
  | e :: rest, k => if e.1 = k then some e.2 else lookupBlock rest k

/-- `Map.delete` on the block store (a JS `Map` has at most one entry per
key, so deleting that entry equals removing every entry of the key). -/
def eraseBlockKey : WorldStore → BlockKey → WorldStore
  | [], _ => []
  | e :: rest, k => if e.1 = k then eraseBlockKey rest k else e :: eraseBlockKey rest k

/-- `World.removeBlock` (`World.tsx:138-149`): if an entry is present at
the key, delete it (the scene-graph removal has no effect on the store)
and return `true`, else return `false`. -/
def removeBlock (s : WorldStore) (p : Position) : WorldStore × Bool :=
  let k := positionToKey p
  if (lookupBlock s k).isSome then
    (eraseBlockKey s k, true)
  else
    (s, false)

/-- `World.placeBlock` (`World.tsx:114-136`): type 0 delegates to
`removeBlock`; otherwise remove any existing entry, then insert the new
mesh (whose material index is `blockType`) and return `true`. -/
def placeBlock (s : WorldStore) (p : Position) (t : Nat) : WorldStore × Bool :=
  if t = 0 then removeBlock s p
  else
    let s1 := (removeBlock s p).1
    (s1 ++ [(positionToKey p, t)], true)

/-- `World.getBlockAt` (`World.tsx:151-154`): `blocks.has(key) ? 1 : 0`. -/
def getBlockAt (s : WorldStore) (p : Position) : Nat :=
  if (lookupBlock s (positionToKey p)).isSome then 1 else 0

/-- `World.updateFromState` (`World.tsx:176-182`): `placeBlock` each listed
block in list order. -/
def updateFromState (s : WorldStore) (ws : WorldState) : WorldStore :=
  ws.blocks.foldl (fun acc b => (placeBlock acc b.position b.type).1) s

/-- `World.getWorldState` (`World.tsx:184-198`): enumerate the store in
insertion order, parse each key back into a position, and report the fixed
type `1` for every entry (`type: 1 // Simplified`); the players list is
empty. -/
def getWorldState (s : WorldStore) : WorldState :=
  { blocks := s.map fun e =>
      { position := { x := e.1.1, y := e.1.2.1, z := e.1.2.2 }, type := 1 }
    players := [] }

/-- The loop body of `World.getGroundHeight` (`World.tsx:100-108`): scan
`y` from the given top downward, returning the first occupied `y`.  The
source's loop also tests `y = 0` and returns `0` on a hit there; since the
miss case returns `0` as well, collapsing the `y = 0` step to `0` is
behaviourally identical. -/
def groundScan (s : WorldStore) (x z : Int) : Nat → Nat
  | 0 => 0
  | y + 1 =>
      if (lookupBlock s (x, ((y : Int) + 1), z)).isSome then y + 1
      else groundScan s x z y

/-- `World.getGroundHeight` (`World.tsx:100-108`): scan from `y = 20`
downward. -/
def getGroundHeight (s : WorldStore) (x z : Int) : Nat :=
  groundScan s x z 20

/-- `playerHeight` (`PlayerController.tsx:148`). -/
def playerHeight : ℚ := 1.8

/-- `PlayerController.getGroundHeight` (`PlayerController.tsx:169-173`):
returns the constant `10` ("Simplified ground level") and does not consult
the world's block data. -/
def pcGetGroundHeight (_x _z : ℚ) : ℚ := 10

/-- The player's vertical state touched by the collision step of
`PlayerController.update`: `camera.position.y`, `velocity.y`, `canJump`. -/
structure VerticalState where
  posY : ℚ
  velY : ℚ
  canJump : Bool
deriving DecidableEq, Repr

/-- The vertical-collision step of `PlayerController.update`
(`PlayerController.tsx:147-157`): compare the new vertical position with
`this.getGroundHeight(x, z) + playerHeight`; at or below, clamp the
position there, zero the vertical velocity and set `canJump`; otherwise
clear `canJump`. -/
def resolveVerticalCollision (st : VerticalState) (x z : ℚ) : VerticalState :=
  let groundY := pcGetGroundHeight x z + playerHeight
  if st.posY ≤ groundY then { posY := groundY, velY := 0, canJump := true }
  else { st with canJump := false }

/-- The transport's ready states (`WebSocket.readyState` constants). -/
inductive ReadyState
  | CONNECTING
  | OPEN
  | CLOSING
  | CLOSED
deriving DecidableEq, Repr

/-- A client→server payload handed to `ws.send`
(`WebSocketManager.sendBlockUpdate` / `sendPlayerUpdate`). -/
inductive ClientMessage
  | block_update (position : Position) (blockType : Nat)
  | player_update (position : Vec3) (rotation : Vec3)
deriving DecidableEq, Repr

/-- The mutable state of `WebSocketManager`: `ws` (`none` models a `null`
socket, otherwise its ready state), `reconnectAttempts`, and a log of the
payloads passed to `ws.send` (the manager has no buffer or replay queue
field). -/
structure WSManager where
  ready : Option ReadyState
  reconnectAttempts : Nat
  sent : List ClientMessage
deriving DecidableEq, Repr

/-- `maxReconnectAttempts = 5`. -/
def maxReconnectAttempts : Nat := 5

/-- `reconnectDelay = 1000` (the base delay, in milliseconds). -/
def reconnectDelay : Nat := 1000

/-- `WebSocketManager.sendBlockUpdate` (`index.ts`): transmit only when
`ws?.readyState === WebSocket.OPEN`; otherwise nothing happens. -/
def sendBlockUpdate (m : WSManager) (p : Position) (t : Nat) : WSManager :=
  if m.ready = some ReadyState.OPEN then
    { m with sent := m.sent ++ [ClientMessage.block_update p t] }
  else m

/-- `WebSocketManager.sendPlayerUpdate`: transmit only when the transport
is open; otherwise nothing happens. -/
def sendPlayerUpdate (m : WSManager) (p r : Vec3) : WSManager :=
  if m.ready = some ReadyState.OPEN then
    { m with sent := m.sent ++ [ClientMessage.player_update p r] }
  else m

/-- `WebSocketManager.attemptReconnect` (`index.ts`): while
`reconnectAttempts < maxReconnectAttempts`, increment the counter and
schedule `connect` after `reconnectDelay * reconnectAttempts`
(post-increment value); once exhausted, only log — nothing is scheduled.
Returns the scheduled delay, if any. -/
def attemptReconnect (m : WSManager) : WSManager × Option Nat :=
  if m.reconnectAttempts < maxReconnectAttempts then
    let m' := { m with reconnectAttempts := m.reconnectAttempts + 1 }
    (m', some (reconnectDelay * m'.reconnectAttempts))
  else (m, none)

/-- The `ws.onopen` handler: the transport is now open and
`reconnectAttempts` is reset to 0 (the logging and the
`onConnectionChange` callback touch no manager state). -/
def handleOpen (m : WSManager) : WSManager :=
  { m with ready := some ReadyState.OPEN, reconnectAttempts := 0 }

/-- Process `k` consecutive unexpected closes (each `ws.onclose` calls
`attemptReconnect`), collecting every scheduled retry delay in order. -/
def closeTrace (m : WSManager) : Nat → WSManager × List Nat
  | 0 => (m, [])
  | k + 1 =>
      let r := closeTrace m k
      let r2 := attemptReconnect r.1
      (r2.1, r.2 ++ r2.2.toList)

/-- `GameStats` from `types/index.ts`. -/
structure GameStats where
  blocksPlaced : Nat
  blocksDestroyed : Nat
  position : Vec3
  playersOnline : Nat
deriving DecidableEq, Repr

/-- `Partial<GameStats>` as received in a `stats_update` message. -/
structure PartialGameStats where
  blocksPlaced : Option Nat
  blocksDestroyed : Option Nat
  position : Option Vec3
  playersOnline : Option Nat
deriving DecidableEq, Repr

/-- The spread-merge `{ ...prev, ...stats }` performed by
`Game.handleStatsUpdate`. -/
def mergeStats (g : GameStats) (p : PartialGameStats) : GameStats :=
  { blocksPlaced := p.blocksPlaced.getD g.blocksPlaced
    blocksDestroyed := p.blocksDestroyed.getD g.blocksDestroyed
    position := p.position.getD g.position
    playersOnline := p.playersOnline.getD g.playersOnline }

/-- A server→client message as discriminated by the `data.type` string in
`WebSocketManager.handleMessage`.  The switch has cases for
`world_update`, `stats_update`, `player_joined` and `player_left` only; a
`player_update` message from the server, like any other tag, falls through
to the `default` branch. -/
inductive ServerMessage
  | world_update (worldState : WorldState)
  | stats_update (stats : PartialGameStats)
  | player_joined (playerId : String)
  | player_left (playerId : String)
  | player_update (playerId : String) (position : Vec3) (rotation : Vec3)
  | unknownKind (tag : String)
deriving Repr

/-- All client state reachable from `WebSocketManager.handleMessage`
through the callbacks `Game.tsx` wires up: the world store (via
`onWorldUpdate → updateFromState`) and the game stats (via
`onStatsUpdate → setGameStats` merge).  No component of the client keeps
any collection of remote players. -/
structure ClientState where
  world : WorldStore
  stats : GameStats
deriving DecidableEq, Repr

/-- `WebSocketManager.handleMessage` composed with the `Game.tsx`
callbacks: `world_update` applies `updateFromState`; `stats_update` merges
the partial stats; `player_joined` and `player_left` only `console.log`
the id; everything else hits the `default` branch, which only logs. -/
def handleMessage (st : ClientState) (msg : ServerMessage) : ClientState :=
  match msg with
  | ServerMessage.world_update ws => { st with world := updateFromState st.world ws }
  | ServerMessage.stats_update p => { st with stats := mergeStats st.stats p }
  | ServerMessage.player_joined _ => st
  | ServerMessage.player_left _ => st
  | ServerMessage.player_update _ _ _ => st
  | ServerMessage.unknownKind _ => st

/-- Process a list of received messages in arrival order. -/
def handleMessages (st : ClientState) (msgs : List ServerMessage) : ClientState :=
  msgs.foldl handleMessage st

/-- The initial `GameStats` value in `Game.tsx` / `PlayerController.tsx`. -/
def initialStats : GameStats :=
  { blocksPlaced := 0, blocksDestroyed := 0
    position := { x := 0, y := 20, z := 0 }, playersOnline := 1 }

/-- Specification helper (not a source function): the type carried by the
last entry of a block list whose position keys to `k`, if any.  This is
the net cell-by-cell effect of folding `placeBlock` over the list. -/
def lastWrite : List Block → BlockKey → Option Nat
  | [], _ => none
  | b :: rest, k =>
      match lastWrite rest k with
      | some t => some t
      | none => if positionToKey b.position = k then some b.type else none

/-- Specification helper: the store holds no explicit air (type-0) entry. -/
def noAirEntries (s : WorldStore) : Prop := ∀ e ∈ s, e.2 ≠ 0

/-! ## Store lemmas -/

theorem lookupBlock_eraseBlockKey (s : WorldStore) (k k' : BlockKey) :
    lookupBlock (eraseBlockKey s k) k' = if k' = k then none else lookupBlock s k' := by
  induction s with
  | nil => simp [eraseBlockKey, lookupBlock]
  | cons e rest ih =>
      by_cases h2 : k' = k
      · subst h2
        by_cases h1 : e.1 = k' <;> simp [eraseBlockKey, lookupBlock, h1, ih]
      · by_cases h1 : e.1 = k
        · have h3 : e.1 ≠ k' := fun hc => h2 (hc.symm.trans h1)
          have h4 : k ≠ k' := fun hc => h2 hc.symm
          simp [eraseBlockKey, lookupBlock, h1, h2, h3, h4, ih]
        · simp [eraseBlockKey, lookupBlock, h1, h2, ih]

theorem eraseBlockKey_of_lookup_none (s : WorldStore) (k : BlockKey)
    (h : lookupBlock s k = none) : eraseBlockKey s k = s := by
  induction s with
  | nil => rfl
  | cons e rest ih =>
      by_cases h1 : e.1 = k
      · simp [lookupBlock, h1] at h
      · simp [lookupBlock, h1] at h
        simp [eraseBlockKey, h1, ih h]

theorem removeBlock_fst (s : WorldStore) (p : Position) :
    (removeBlock s p).1 = eraseBlockKey s (positionToKey p) := by
  unfold removeBlock
  by_cases h : (lookupBlock s (positionToKey p)).isSome
  · simp [h]
  · rw [Option.not_isSome_iff_eq_none] at h
    simp [h, Option.isSome_none, eraseBlockKey_of_lookup_none s _ h]

theorem removeBlock_snd (s : WorldStore) (p : Position) :
    (removeBlock s p).2 = (lookupBlock s (positionToKey p)).isSome := by
  unfold removeBlock
  by_cases h : (lookupBlock s (positionToKey p)).isSome <;> simp [h]

theorem lookupBlock_removeBlock (s : WorldStore) (p : Position) (k : BlockKey) :
    lookupBlock (removeBlock s p).1 k =
      if k = positionToKey p then none else lookupBlock s k := by
  rw [removeBlock_fst, lookupBlock_eraseBlockKey]

theorem lookupBlock_append_single (s : WorldStore) (k : BlockKey) (t : Nat) (k' : BlockKey) :
    lookupBlock (s ++ [(k, t)]) k' =
      match lookupBlock s k' with
      | some v => some v
      | none => if k' = k then some t else none := by
  induction s with
  | nil =>
      by_cases h : k = k'
      · simp [lookupBlock, h]
      · have h2 : k' ≠ k := fun hc => h hc.symm
        simp [lookupBlock, h, h2]
  | cons e rest ih =>
      by_cases h : e.1 = k'
      · simp [lookupBlock, h]
      · simp [lookupBlock, h, ih]

theorem lookupBlock_placeBlock (s : WorldStore) (p : Position) (t : Nat) (k : BlockKey) :
    lookupBlock (placeBlock s p t).1 k =
      if k = positionToKey p then (if t = 0 then none else some t)
      else lookupBlock s k := by
  by_cases ht : t = 0
  · simp [placeBlock, ht, lookupBlock_removeBlock]
  · simp only [placeBlock, ht, if_false, if_neg ht]
    rw [lookupBlock_append_single, lookupBlock_removeBlock]
    by_cases hk : k = positionToKey p
    · simp [hk]
    · cases hl : lookupBlock s k <;> simp [hk]

theorem lookupBlock_isSome_iff (s : WorldStore) (k : BlockKey) :
    (lookupBlock s k).isSome ↔ ∃ e ∈ s, e.1 = k := by
  induction s with
  | nil => simp [lookupBlock]
  | cons e rest ih =>
      by_cases h : e.1 = k
      · simp [lookupBlock, h]
      · simp [lookupBlock, h, ih]

theorem mem_eraseBlockKey {s : WorldStore} {k : BlockKey} {e : BlockKey × Nat}
    (h : e ∈ eraseBlockKey s k) : e ∈ s := by
  induction s with
  | nil => simp [eraseBlockKey] at h
  | cons e' rest ih =>
      by_cases h1 : e'.1 = k
      · rw [eraseBlockKey, if_pos h1] at h
        exact List.mem_cons_of_mem _ (ih h)
      · rw [eraseBlockKey, if_neg h1] at h
        rcases List.mem_cons.mp h with h2 | h2
        · exact h2 ▸ List.mem_cons_self _ _
        · exact List.mem_cons_of_mem _ (ih h2)

theorem noAirEntries_removeBlock {s : WorldStore} (p : Position)
    (h : noAirEntries s) : noAirEntries (removeBlock s p).1 := by
  rw [removeBlock_fst]
  intro e he
  exact h e (mem_eraseBlockKey he)

theorem noAirEntries_placeBlock {s : WorldStore} (p : Position) (t : Nat)
    (h : noAirEntries s) : noAirEntries (placeBlock s p t).1 := by
  by_cases ht : t = 0
  · rw [placeBlock, if_pos ht]
    exact noAirEntries_removeBlock p h
  · rw [placeBlock, if_neg ht]
    intro e he
    rcases List.mem_append.mp he with h2 | h2
    · exact noAirEntries_removeBlock p h e h2
    · rcases List.mem_singleton.mp h2 with rfl
      exact ht

theorem noAirEntries_updateFromState {s : WorldStore} (ws : WorldState)
    (h : noAirEntries s) : noAirEntries (updateFromState s ws) := by
  rcases ws with ⟨blocks, players⟩
  induction blocks generalizing s with
  | nil => exact h
  | cons b rest ih => exact ih (noAirEntries_placeBlock b.position b.type h)

theorem lookupBlock_updateFromState (s : WorldStore) (ws : WorldState) (k : BlockKey) :
    lookupBlock (updateFromState s ws) k =
      match lastWrite ws.blocks k with
      | none => lookupBlock s k
      | some t => if t = 0 then none else some t := by
  rcases ws with ⟨blocks, players⟩
  induction blocks generalizing s with
  | nil => rfl
  | cons b rest ih =>
      have hstep : updateFromState s { blocks := b :: rest, players := players } =
          updateFromState (placeBlock s b.position b.type).1
            { blocks := rest, players := players } := rfl
      rw [hstep, ih]
      cases hlw : lastWrite rest k with
      | some t => simp [lastWrite, hlw]
      | none =>
          simp only [lastWrite, hlw]
          by_cases hk : positionToKey b.position = k
          · subst hk
            simp [lookupBlock_placeBlock]
          · have hk2 : k ≠ positionToKey b.position := fun hc => hk hc.symm
            simp [hk, lookupBlock_placeBlock, hk2]

theorem lastWrite_cons (b : Block) (rest : List Block) (k : BlockKey) :
    lastWrite (b :: rest) k =
      match lastWrite rest k with
      | some t => some t
      | none => if positionToKey b.position = k then some b.type else none := rfl

theorem lastWrite_getWorldState (s : WorldStore) (k : BlockKey) :
    lastWrite (getWorldState s).blocks k =
      if (lookupBlock s k).isSome then some 1 else none := by
  induction s with
  | nil => rfl
  | cons e rest ih =>
      obtain ⟨⟨ex, ey, ez⟩, ev⟩ := e
      show lastWrite
        ({ position := { x := ex, y := ey, z := ez }, type := 1 } ::
          (getWorldState rest).blocks) k = _
      rw [lastWrite_cons, ih]
      by_cases hr : (lookupBlock rest k).isSome
      · rw [if_pos hr]
        by_cases h1 : ((ex, ey, ez) : BlockKey) = k <;>
          simp [lookupBlock, h1, hr]
      · rw [if_neg hr]
        by_cases h1 : ((ex, ey, ez) : BlockKey) = k <;>
          simp [lookupBlock, h1, hr, positionToKey]

/-! ## Claims -/

/-- C1, counterexample: receive `world_update` with blocks
`[{position:{x:1,y:1,z:1},type:3}]` into an empty world.  The cell
(1,1,1) becomes occupied, but the cell query `getBlockAt` reports `1`,
not `3` (`blocks.has(key) ? 1 : 0` ignores the stored type), so the claim
"a query of that cell reports block type 3" is false. -/
theorem C1_counterexample :
    getBlockAt (handleMessage { world := [], stats := initialStats }
        (ServerMessage.world_update
          { blocks := [{ position := { x := 1, y := 1, z := 1 }, type := 3 }],
            players := [] })).world { x := 1, y := 1, z := 1 } = 1 ∧
    (1 : Nat) ≠ 3 :=
  ⟨rfl, by decide⟩

/-- C1 (amended): for every received `world_update` message, applying it
writes every block of the enumerated list into the WorldStore cell-by-cell
(the value at any cell afterwards is the last listed type for that cell —
absent for air — and unlisted cells are untouched); in particular, after
the scenario message the cell (1,1,1) holds stored type 3 and is occupied,
but the cell query `getBlockAt` reports 1, as it does for every occupied
cell, rather than the stored type. -/
theorem C1_world_update_cell_by_cell (st : ClientState) (ws : WorldState) (k : BlockKey) :
    lookupBlock (handleMessage st (ServerMessage.world_update ws)).world k =
      (match lastWrite ws.blocks k with
        | none => lookupBlock st.world k
        | some t => if t = 0 then none else some t) ∧
    lookupBlock (handleMessage { world := [], stats := initialStats }
        (ServerMessage.world_update
          { blocks := [{ position := { x := 1, y := 1, z := 1 }, type := 3 }],
            players := [] })).world ((1 : Int), (1 : Int), (1 : Int)) = some 3 ∧
    getBlockAt (handleMessage { world := [], stats := initialStats }
        (ServerMessage.world_update
          { blocks := [{ position := { x := 1, y := 1, z := 1 }, type := 3 }],
            players := [] })).world { x := 1, y := 1, z := 1 } = 1 :=
  ⟨lookupBlock_updateFromState st.world ws k, rfl, rfl⟩

/-- C2, counterexample: process end-to-end scenario C —
`player_joined {id:"p2"}`, then `player_update` for "p2" with position
(1,2,3), then `player_left {id:"p2"}` — starting from the initial client
state.  The client state is left completely unchanged at every step (the
handlers only `console.log`), so no PlayerState entry for "p2" is ever
created, no entry ever reflects the transmitted position, and there is
nothing for `player_left` to remove. -/
theorem C2_counterexample :
    handleMessages { world := [], stats := initialStats }
        [ServerMessage.player_joined "p2",
         ServerMessage.player_update "p2" { x := 1, y := 2, z := 3 } { x := 0, y := 0, z := 0 },
         ServerMessage.player_left "p2"] =
      { world := [], stats := initialStats } := rfl

/-- C2 (amended): receiving `player_joined` or `player_left` for any
identifier only logs the identifier and leaves the entire client state
unchanged, and the message dispatcher has no `player_update` case at all
(such a message falls through to the default branch, also leaving the
state unchanged); no PlayerState entry for a remote player is ever
created, updated, or removed. -/
theorem C2_player_messages_are_ignored (st : ClientState) (pid : String)
    (pos rot : Vec3) :
    handleMessage st (ServerMessage.player_joined pid) = st ∧
    handleMessage st (ServerMessage.player_update pid pos rot) = st ∧
    handleMessage st (ServerMessage.player_left pid) = st :=
  ⟨rfl, rfl, rfl⟩

/-- C3, counterexample: in a store whose only block sits at (0,15,0), the
downward scan of the voxel store gives ground height 15 at (x,z)=(0,0), so
the claimed threshold is 15 + playerHeight; but the per-frame collision
step clamps a player at height 5 to 10 + playerHeight (its ground-height
function is the constant 10 and never consults the store), which differs
from the claimed threshold. -/
theorem C3_counterexample :
    getGroundHeight (placeBlock [] { x := 0, y := 15, z := 0 } 3).1 0 0 = 15 ∧
    (resolveVerticalCollision { posY := 5, velY := -3, canJump := false } 0 0).posY =
      10 + playerHeight ∧
    (10 + playerHeight : ℚ) ≠
      (getGroundHeight (placeBlock [] { x := 0, y := 15, z := 0 } 3).1 0 0 : ℚ) +
        playerHeight := by
  have hg : getGroundHeight (placeBlock [] { x := 0, y := 15, z := 0 } 3).1 0 0 = 15 := by
    decide
  refine ⟨hg, ?_, ?_⟩
  · norm_num [resolveVerticalCollision, pcGetGroundHeight, playerHeight]
  · rw [hg]
    norm_num [playerHeight]

/-- C3 (amended): in every per-frame update, the vertical collision
threshold is the constant ground height 10 plus the player height 1.8 —
`PlayerController.getGroundHeight` returns the constant 10 and does not
consult the voxel store; whenever the player's new vertical position is at
or below that threshold, the position is clamped to the threshold,
vertical velocity is set to zero, and the player is marked grounded
(`canJump`), otherwise the player is marked airborne. -/
theorem C3_vertical_collision_uses_constant_ground (st : VerticalState) (x z : ℚ) :
    pcGetGroundHeight x z = 10 ∧
    (st.posY ≤ 10 + playerHeight →
        resolveVerticalCollision st x z =
          { posY := 10 + playerHeight, velY := 0, canJump := true }) ∧
    (10 + playerHeight < st.posY →
        resolveVerticalCollision st x z =
          { posY := st.posY, velY := st.velY, canJump := false }) := by
  refine ⟨rfl, fun h => ?_, fun h => ?_⟩
  · simp [resolveVerticalCollision, pcGetGroundHeight, h]
  · simp [resolveVerticalCollision, pcGetGroundHeight, not_le.mpr h]

/-- C3 witness: a player at height 5 is below the constant threshold
10 + 1.8 and is clamped there, with zeroed vertical velocity, grounded. -/
theorem C3_witness :
    resolveVerticalCollision { posY := 5, velY := -7, canJump := false } 2 3 =
      { posY := 10 + playerHeight, velY := 0, canJump := true } :=
  (C3_vertical_collision_uses_constant_ground
      { posY := 5, velY := -7, canJump := false } 2 3).2.1
    (by norm_num [playerHeight])

/-- C4: after an unexpected close, the n-th automatic reconnection attempt
is scheduled after `reconnectDelay × n` (n starting at 1, the
post-increment counter value); the counter is reset to 0 by any successful
open; once `maxReconnectAttempts = 5` attempts are used up, nothing
further is scheduled — in particular a run of 7 consecutive closes from a
fresh manager schedules exactly the five delays 1000, 2000, 3000, 4000,
5000 and nothing more. -/
theorem C4_reconnect_policy (m : WSManager) :
    (handleOpen m).reconnectAttempts = 0 ∧
    (m.reconnectAttempts < maxReconnectAttempts →
        attemptReconnect m =
          ({ m with reconnectAttempts := m.reconnectAttempts + 1 },
            some (reconnectDelay * (m.reconnectAttempts + 1)))) ∧
    (maxReconnectAttempts ≤ m.reconnectAttempts → attemptReconnect m = (m, none)) ∧
    (closeTrace { ready := none, reconnectAttempts := 0, sent := [] } 7).2 =
      [1000, 2000, 3000, 4000, 5000] := by
  refine ⟨rfl, fun h => ?_, fun h => ?_, by decide⟩
  · simp [attemptReconnect, h]
  · simp [attemptReconnect, Nat.not_lt.mpr h]

/-- C4 witness: a fresh manager schedules its first retry after
`1000 × 1`, incrementing the counter to 1. -/
theorem C4_witness :
    attemptReconnect { ready := none, reconnectAttempts := 0, sent := [] } =
      ({ ready := none, reconnectAttempts := 1, sent := [] }, some 1000) :=
  (C4_reconnect_policy { ready := none, reconnectAttempts := 0, sent := [] }).2.1
    (by decide)

/-- C5: for every store, coordinate and non-air type, after
`placeBlock(c,t)` the occupancy query reports the cell occupied
(`getBlockAt = 1`), and after a subsequent `removeBlock(c)` it reports the
cell empty (`getBlockAt = 0`). -/
theorem C5_place_occupies_remove_clears (s : WorldStore) (p : Position) (t : Nat)
    (h : t ≠ 0) :
    getBlockAt (placeBlock s p t).1 p = 1 ∧
    getBlockAt (removeBlock (placeBlock s p t).1 p).1 p = 0 := by
  constructor
  · simp [getBlockAt, lookupBlock_placeBlock, h]
  · simp [getBlockAt, lookupBlock_removeBlock]

/-- C5 witness: placing type 7 at the origin of the empty store occupies
the cell; removing it empties the cell again. -/
theorem C5_witness :
    getBlockAt (placeBlock [] { x := 0, y := 0, z := 0 } 7).1 { x := 0, y := 0, z := 0 } = 1 ∧
    getBlockAt (removeBlock (placeBlock [] { x := 0, y := 0, z := 0 } 7).1
        { x := 0, y := 0, z := 0 }).1 { x := 0, y := 0, z := 0 } = 0 :=
  C5_place_occupies_remove_clears [] { x := 0, y := 0, z := 0 } 7 (by decide)

/-- C6: for every coordinate and every starting store, `placeBlock(c, 0)`
returns exactly the same store and the same boolean as `removeBlock(c)`;
and both are idempotent — a second application on the same coordinate
leaves the store unchanged (and reports that no deletion occurred). -/
theorem C6_place_air_equals_remove (s : WorldStore) (p : Position) :
    placeBlock s p 0 = removeBlock s p ∧
    removeBlock (removeBlock s p).1 p = ((removeBlock s p).1, false) ∧
    placeBlock (placeBlock s p 0).1 p 0 = ((placeBlock s p 0).1, false) := by
  have h1 : ∀ s2 : WorldStore, placeBlock s2 p 0 = removeBlock s2 p := by
    intro s2
    simp [placeBlock]
  have h2 : ∀ s2 : WorldStore, lookupBlock s2 (positionToKey p) = none →
      removeBlock s2 p = (s2, false) := by
    intro s2 hnone
    simp [removeBlock, hnone]
  have hnone : lookupBlock (removeBlock s p).1 (positionToKey p) = none := by
    simp [lookupBlock_removeBlock]
  refine ⟨h1 s, h2 _ hnone, ?_⟩
  rw [h1 s, h1 (removeBlock s p).1, h2 _ hnone]

/-- C7: the store-never-holds-air invariant is preserved by `placeBlock`,
`removeBlock` and `updateFromState`, and placing type 0 at a coordinate
leaves no entry there (it removes rather than inserts). -/
theorem C7_no_air_invariant (s : WorldStore) (p : Position) (t : Nat) (ws : WorldState)
    (h : noAirEntries s) :
    noAirEntries (placeBlock s p t).1 ∧
    noAirEntries (removeBlock s p).1 ∧
    noAirEntries (updateFromState s ws) ∧
    lookupBlock (placeBlock s p 0).1 (positionToKey p) = none :=
  ⟨noAirEntries_placeBlock p t h, noAirEntries_removeBlock p h,
   noAirEntries_updateFromState ws h, by simp [lookupBlock_placeBlock]⟩

/-- C7 witness: starting from the (air-free) empty store, each operation
— including a world update that first places and then air-overwrites a
cell — yields an air-free store, and placing air leaves the cell empty. -/
theorem C7_witness :
    noAirEntries ([] : WorldStore) ∧
    (noAirEntries (placeBlock [] { x := 0, y := 0, z := 0 } 4).1 ∧
     noAirEntries (removeBlock ([] : WorldStore) { x := 0, y := 0, z := 0 }).1 ∧
     noAirEntries (updateFromState []
        { blocks := [{ position := { x := 2, y := 3, z := 4 }, type := 5 },
                     { position := { x := 2, y := 3, z := 4 }, type := 0 }],
          players := [] }) ∧
     lookupBlock (placeBlock [] { x := 0, y := 0, z := 0 } 0).1
        (positionToKey { x := 0, y := 0, z := 0 }) = none) :=
  have h0 : noAirEntries ([] : WorldStore) := fun e he => absurd he (List.not_mem_nil e)
  ⟨h0, C7_no_air_invariant [] { x := 0, y := 0, z := 0 } 4
      { blocks := [{ position := { x := 2, y := 3, z := 4 }, type := 5 },
                   { position := { x := 2, y := 3, z := 4 }, type := 0 }],
        players := [] } h0⟩

/-- A coordinate far outside every configured extent appearing in the
repository (the generated terrain spans |x|,|z| ≤ 20 and the ground-height
scan tops out at y = 20). -/
def outOfBoundsCoord : Position := { x := 999999, y := 999999, z := 999999 }

/-- C8, counterexample: a `placeBlock` at a coordinate far outside any
configured world bounds is not ignored — starting from the empty store it
inserts the block, changing the store, so the mutation is not a no-op. -/
theorem C8_counterexample :
    lookupBlock ([] : WorldStore) (positionToKey outOfBoundsCoord) = none ∧
    (placeBlock [] outOfBoundsCoord 1).1 ≠ ([] : WorldStore) ∧
    getBlockAt (placeBlock [] outOfBoundsCoord 1).1 outOfBoundsCoord = 1 := by
  refine ⟨rfl, by decide, rfl⟩

/-- C8 (amended): the WorldStore performs no bounds validation at all —
`placeBlock` and `removeBlock` behave at every coordinate, however far
outside any configured world bounds, exactly as anywhere else and raise no
error: a non-air `placeBlock` always inserts the block (it is not
ignored), while `removeBlock` at an absent coordinate is a no-op that
leaves the store unchanged and returns `false`. -/
theorem C8_no_bounds_validation (s : WorldStore) (p : Position) (t : Nat) :
    (t ≠ 0 → lookupBlock (placeBlock s p t).1 (positionToKey p) = some t) ∧
    (lookupBlock s (positionToKey p) = none → removeBlock s p = (s, false)) := by
  constructor
  · intro ht
    simp [lookupBlock_placeBlock, ht]
  · intro hnone
    simp [removeBlock, hnone]

/-- C8 witness: at the far out-of-bounds coordinate, placing type 2 into
the empty store records the block, and removing from the empty store is a
no-op returning `false`. -/
theorem C8_witness :
    lookupBlock (placeBlock [] outOfBoundsCoord 2).1 (positionToKey outOfBoundsCoord) =
      some 2 ∧
    removeBlock ([] : WorldStore) outOfBoundsCoord = ([], false) :=
  ⟨(C8_no_bounds_validation [] outOfBoundsCoord 2).1 (by decide),
   (C8_no_bounds_validation [] outOfBoundsCoord 2).2 rfl⟩

/-- C9: when the transport is not in the open state, `sendBlockUpdate` and
`sendPlayerUpdate` leave the manager's entire state unchanged — nothing is
transmitted (the send log is untouched) and nothing is buffered for later
replay (the manager has no buffer; its whole state is the fixpoint) — and
no error is raised. -/
theorem C9_send_drops_when_transport_not_open (m : WSManager) (p : Position) (t : Nat)
    (pos rot : Vec3) (h : m.ready ≠ some ReadyState.OPEN) :
    sendBlockUpdate m p t = m ∧ sendPlayerUpdate m pos rot = m := by
  constructor <;> simp [sendBlockUpdate, sendPlayerUpdate, h]

/-- C9 witness: on a closed transport, both sends leave the manager
unchanged. -/
theorem C9_witness :
    sendBlockUpdate { ready := some ReadyState.CLOSED, reconnectAttempts := 0, sent := [] }
        { x := 1, y := 2, z := 3 } 4 =
      { ready := some ReadyState.CLOSED, reconnectAttempts := 0, sent := [] } ∧
    sendPlayerUpdate { ready := some ReadyState.CLOSED, reconnectAttempts := 0, sent := [] }
        { x := 0, y := 0, z := 0 } { x := 0, y := 0, z := 0 } =
      { ready := some ReadyState.CLOSED, reconnectAttempts := 0, sent := [] } :=
  C9_send_drops_when_transport_not_open _ _ _ _ _ (by decide)

/-- C10: `getWorldState` reports every stored cell — a key is stored iff
some reported block sits at it — and reports every one with block type 1,
whatever type was placed; consequently re-applying the serialized state
via `updateFromState` preserves exactly which cells are occupied while
mapping every occupied cell's stored type to 1. -/
theorem C10_world_state_round_trip (s : WorldStore) (k : BlockKey) :
    (∀ b ∈ (getWorldState s).blocks, b.type = 1) ∧
    ((lookupBlock s k).isSome ↔
      ∃ b ∈ (getWorldState s).blocks, positionToKey b.position = k) ∧
    lookupBlock (updateFromState s (getWorldState s)) k =
      (lookupBlock s k).map fun _ => 1 := by
  refine ⟨?_, ?_, ?_⟩
  · intro b hb
    rcases List.mem_map.mp hb with ⟨e, _, rfl⟩
    rfl
  · rw [lookupBlock_isSome_iff]
    constructor
    · rintro ⟨e, he, rfl⟩
      exact ⟨_, List.mem_map_of_mem _ he, rfl⟩
    · rintro ⟨b, hb, hk⟩
      rcases List.mem_map.mp hb with ⟨e, he, rfl⟩
      exact ⟨e, he, hk⟩
  · rw [lookupBlock_updateFromState, lastWrite_getWorldState]
    cases hl : lookupBlock s k <;> simp [hl]

end Craft
